import Mathlib

/-!
Verification development for the muni-ai-rcm agent harness
(`src/agents/base_agent.py` and the concrete agent handlers).

The Python code is shallowly embedded: dictionaries become the `Json`
inductive below, `json.loads` becomes the executable `jsonLoadsChars`
parser, the database becomes an explicit list of `RunRecord`s threaded
through the handler, and exception-raising execution paths become the
`ExecOutcome` sum.  Machine-level aspects that the claims do not
exercise (UTF-8 details and fractional/exponent number literals, which
the modelled parser rejects; Python float arithmetic is represented
with `Rat`) are documented at each definition.
-/

/-- JSON values as produced by Python `json.loads`: objects keep their
key/value pairs in insertion order (duplicate keys are resolved by the
lookup functions below with the later entry winning, as a Python dict
does).  Numbers are represented as rationals; the modelled parser only
produces integer values, and the Python float literals appearing in the
agents (0.5, 0.3, 0.92, ...) are embedded as the corresponding
rationals. -/
inductive Json where
  | null : Json
  | bool : Bool → Json
  | num : Rat → Json
  | str : String → Json
  | arr : List Json → Json
  | obj : List (String × Json) → Json

/-- Whitespace accepted between JSON tokens (RFC 8259, also what Python
`json.loads` skips). -/
def isWsChar (c : Char) : Bool :=
  c == ' ' || c == '\t' || c == '\n' || c == '\r'

/-- Drop leading JSON whitespace. -/
def skipWs : List Char → List Char
  | [] => []
  | c :: cs => if isWsChar c then skipWs cs else c :: cs

/-- Value of a hexadecimal digit, used for `\uXXXX` string escapes. -/
def hexVal? (c : Char) : Option Nat :=
  if '0' ≤ c ∧ c ≤ '9' then some (c.toNat - '0'.toNat)
  else if 'a' ≤ c ∧ c ≤ 'f' then some (c.toNat - 'a'.toNat + 10)
  else if 'A' ≤ c ∧ c ≤ 'F' then some (c.toNat - 'A'.toNat + 10)
  else none

/-- Parse the body of a JSON string literal (the opening quote already
consumed), returning the decoded characters and the remaining input.
Handles the escape sequences Python `json.loads` accepts; a `\uXXXX`
escape outside the valid `Char` range degrades to the default
character, a corner none of the claims exercises. -/
def parseStrChars : Nat → List Char → Option (List Char × List Char)
  | 0, _ => none
  | _ + 1, [] => none
  | fuel + 1, c :: cs =>
    if c == '"' then some ([], cs)
    else if c == '\\' then
      match cs with
      | 'u' :: h1 :: h2 :: h3 :: h4 :: cs4 =>
        match hexVal? h1, hexVal? h2, hexVal? h3, hexVal? h4 with
        | some a, some b, some d, some e =>
          match parseStrChars fuel cs4 with
          | some (l, r) => some (Char.ofNat (((a * 16 + b) * 16 + d) * 16 + e) :: l, r)
          | none => none
        | _, _, _, _ => none
      | e :: cs2 =>
        let esc? : Option Char :=
          if e == '"' then some '"'
          else if e == '\\' then some '\\'
          else if e == '/' then some '/'
          else if e == 'b' then some (Char.ofNat 8)
          else if e == 'f' then some (Char.ofNat 12)
          else if e == 'n' then some '\n'
          else if e == 'r' then some '\r'
          else if e == 't' then some '\t'
          else none
        match esc? with
        | some ch =>
          match parseStrChars fuel cs2 with
          | some (l, r) => some (ch :: l, r)
          | none => none
        | none => none
      | [] => none
    else if c.toNat < 32 then none
    else
      match parseStrChars fuel cs with
      | some (l, r) => some (c :: l, r)
      | none => none

/-- Longest prefix of decimal digits. -/
def spanDigits : List Char → (List Char × List Char)
  | [] => ([], [])
  | c :: cs =>
    if c.isDigit then
      let (d, r) := spanDigits cs
      (c :: d, r)
    else ([], c :: cs)

/-- Decimal value of a digit list. -/
def digitsToNat (ds : List Char) : Nat :=
  ds.foldl (fun a c => a * 10 + (c.toNat - 48)) 0

/-- Parse the integer part of a JSON number (sign already consumed):
either a lone `0` or a nonzero digit followed by more digits, exactly
the integer grammar `json.loads` accepts.  Fractional and exponent
forms are not modelled (the parser fails on them); no text any claim
exercises contains them. -/
def parseNumAfterSign : List Char → Option (Nat × List Char)
  | [] => none
  | c :: cs =>
    if c == '0' then some (0, cs)
    else if c.isDigit then
      let (d, r) := spanDigits cs
      some (digitsToNat (c :: d), r)
    else none

mutual

/-- Recursive-descent JSON value parser modelling Python `json.loads`
token by token.  The fuel argument strictly decreases on every
recursive call; callers pass `length + 1`, which suffices because every
nesting level consumes at least one character. -/
def parseValue : Nat → List Char → Option (Json × List Char)
  | 0, _ => none
  | fuel + 1, cs =>
    match skipWs cs with
    | [] => none
    | '{' :: rest =>
      match skipWs rest with
      | '}' :: r2 => some (Json.obj [], r2)
      | _ =>
        match parseMembers fuel rest with
        | some (kvs, r2) => some (Json.obj kvs, r2)
        | none => none
    | '[' :: rest =>
      match skipWs rest with
      | ']' :: r2 => some (Json.arr [], r2)
      | _ =>
        match parseElems fuel rest with
        | some (xs, r2) => some (Json.arr xs, r2)
        | none => none
    | '"' :: rest =>
      match parseStrChars (rest.length + 1) rest with
      | some (l, r) => some (Json.str (String.mk l), r)
      | none => none
    | 't' :: 'r' :: 'u' :: 'e' :: r => some (Json.bool true, r)
    | 'f' :: 'a' :: 'l' :: 's' :: 'e' :: r => some (Json.bool false, r)
    | 'n' :: 'u' :: 'l' :: 'l' :: r => some (Json.null, r)
    | '-' :: rest =>
      match parseNumAfterSign rest with
      | some (n, r) => some (Json.num (-(n : Int) : Int), r)
      | none => none
    | c :: rest =>
      if c.isDigit then
        match parseNumAfterSign (c :: rest) with
        | some (n, r) => some (Json.num (n : Nat), r)
        | none => none
      else none

/-- Members of a JSON object after the opening brace (at least one
key/value pair expected; the empty object is handled by the caller). -/
def parseMembers : Nat → List Char → Option (List (String × Json) × List Char)
  | 0, _ => none
  | fuel + 1, cs =>
    match skipWs cs with
    | '"' :: rest =>
      match parseStrChars (rest.length + 1) rest with
      | some (kl, r1) =>
        match skipWs r1 with
        | ':' :: r2 =>
          match parseValue fuel r2 with
          | some (v, r3) =>
            match skipWs r3 with
            | ',' :: r4 =>
              match parseMembers fuel r4 with
              | some (kvs, r5) => some ((String.mk kl, v) :: kvs, r5)
              | none => none
            | '}' :: r4 => some ([(String.mk kl, v)], r4)
            | _ => none
          | none => none
        | _ => none
      | none => none
    | _ => none

/-- Elements of a JSON array after the opening bracket (at least one
element expected; the empty array is handled by the caller). -/
def parseElems : Nat → List Char → Option (List Json × List Char)
  | 0, _ => none
  | fuel + 1, cs =>
    match parseValue fuel cs with
    | some (v, r1) =>
      match skipWs r1 with
      | ',' :: r2 =>
        match parseElems fuel r2 with
        | some (xs, r3) => some (v :: xs, r3)
        | none => none
      | ']' :: r2 => some ([v], r2)
      | _ => none
    | none => none

end

/-- Model of Python `json.loads` on a character list: parse one value,
then require that only whitespace remains (Python raises
`Extra data` otherwise). -/
def jsonLoadsChars (cs : List Char) : Option Json :=
  match parseValue (cs.length + 1) cs with
  | some (j, rest) => if (skipWs rest).isEmpty then some j else none
  | none => none

/-- Python `text.split` on a newline: splits on every `\n` and keeps
empty pieces (so the empty text yields one empty line, as in Python). -/
def pySplitOnNl : List Char → List (List Char)
  | [] => [[]]
  | c :: rest =>
    let r := pySplitOnNl rest
    if c == '\n' then [] :: r
    else
      match r with
      | h :: t => (c :: h) :: t
      | [] => [[c]]

/-- Characters Python `str.strip` removes: the ASCII whitespace set
(space, tab, newline, carriage return, vertical tab, form feed). -/
def isPyStripChar (c : Char) : Bool :=
  c == ' ' || c == '\t' || c == '\n' || c == '\r' ||
  c == Char.ofNat 11 || c == Char.ofNat 12

/-- Python `line.strip()` on a character list. -/
def pyStrip (cs : List Char) : List Char :=
  ((cs.dropWhile isPyStripChar).reverse.dropWhile isPyStripChar).reverse

/-- Python `s.lower()` (ASCII case folding suffices for the fence
marker test the source performs). -/
def pyLower (cs : List Char) : List Char := cs.map Char.toLower

/-- Boolean test that `pat` occurs as a contiguous segment of `l`,
modelling the Python `in` operator on strings. -/
def charSegIn (pat l : List Char) : Bool :=
  match l with
  | [] => pat.isEmpty
  | _ :: tl => pat.isPrefixOf l || charSegIn pat tl

/-- First character test. -/
def headIs (c : Char) : List Char → Bool
  | x :: _ => x == c
  | [] => false

/-- Last character test. -/
def lastIs (c : Char) (l : List Char) : Bool := headIs c l.reverse

/-- The json code-fence marker the source searches for in lowercased
lines. -/
def jsonFenceMarker : List Char := "```json".toList

/-- The bare fenced-code marker. -/
def fenceMarker : List Char := "```".toList

/-- The line-scanning loop of `BaseAgent.extract_json_from_text`
(src/agents/base_agent.py lines 283-292), translated clause by clause:
a line containing the json fence marker (case-insensitively), or
containing a bare fence marker while inside a fence, toggles the
`in_json` flag and is dropped; otherwise the line is collected when
inside a fence, or when its stripped form starts with an opening brace
and ends with a closing brace. -/
def collect_json_lines : List (List Char) → Bool → List (List Char)
  | [], _ => []
  | line :: rest, in_json =>
    if charSegIn jsonFenceMarker (pyLower line) || (charSegIn fenceMarker line && in_json) then
      collect_json_lines rest (!in_json)
    else
      let stripped := pyStrip line
      if in_json || (headIs '{' stripped && lastIs '}' stripped) then
        line :: collect_json_lines rest in_json
      else
        collect_json_lines rest in_json

/-- Index of the last occurrence of `c`, modelling Python `str.rfind`
(the `none` case corresponds to Python returning -1). -/
def lastIdxOf (cs : List Char) (c : Char) : Option Nat :=
  match List.findIdx? (fun x => x == c) cs.reverse with
  | some k => some (cs.length - 1 - k)
  | none => none

/-- `BaseAgent.extract_json_from_text` (src/agents/base_agent.py lines
274-310): try `json.loads` on the whole text; on failure collect
candidate lines with the fence scan and, when any were collected, parse
them joined by newlines; on failure parse the slice from the first
opening brace to the last closing brace; if everything fails, raise
`ValueError` with the source message (embedded as `Except.error`). -/
def extract_json_from_text (text : String) : Except String Json :=
  let cs := text.toList
  match jsonLoadsChars cs with
  | some j => Except.ok j
  | none =>
    let json_lines := collect_json_lines (pySplitOnNl cs) false
    match (if json_lines.isEmpty then none
           else jsonLoadsChars (List.intercalate ['\n'] json_lines)) with
    | some j => Except.ok j
    | none =>
      match List.findIdx? (fun c => c == '{') cs, lastIdxOf cs '}' with
      | some i, some k =>
        match jsonLoadsChars ((cs.drop i).take (k + 1 - i)) with
        | some j => Except.ok j
        | none => Except.error "No valid JSON found in response"
      | _, _ => Except.error "No valid JSON found in response"

/-- Strategy 1 of the extractor in isolation: parse the whole text. -/
def extract_attempt1 (text : String) : Option Json :=
  jsonLoadsChars text.toList

/-- Strategy 2 of the extractor in isolation: parse the joined
candidate lines produced by the fence scan, provided any were
collected. -/
def extract_attempt2 (text : String) : Option Json :=
  let json_lines := collect_json_lines (pySplitOnNl text.toList) false
  if json_lines.isEmpty then none
  else jsonLoadsChars (List.intercalate ['\n'] json_lines)

/-- Strategy 3 of the extractor in isolation: parse the slice from the
first opening brace to the last closing brace, inclusive. -/
def extract_attempt3 (text : String) : Option Json :=
  let cs := text.toList
  match List.findIdx? (fun c => c == '{') cs, lastIdxOf cs '}' with
  | some i, some k => jsonLoadsChars ((cs.drop i).take (k + 1 - i))
  | _, _ => none


/-- Python `dict.get(k)` on a JSON object: the value of the last entry
with key `k` (later duplicate keys win, as in a Python dict), or null
(Python `None`) when the key is absent or the value is not an object. -/
def jGet (j : Json) (k : String) : Json :=
  match j with
  | Json.obj kvs => (kvs.foldl (fun acc p => if p.1 == k then some p.2 else acc) none).getD Json.null
  | _ => Json.null

/-- Python `dict.get(k, d)` on a JSON object, with default `d`. -/
def jGetD (j : Json) (k : String) (d : Json) : Json :=
  match j with
  | Json.obj kvs => (kvs.foldl (fun acc p => if p.1 == k then some p.2 else acc) none).getD d
  | _ => d

/-- Python `k in dict` on a JSON object. -/
def jHasKey (j : Json) (k : String) : Bool :=
  match j with
  | Json.obj kvs => kvs.any (fun p => p.1 == k)
  | _ => false

/-- Python `dict[k] = v`: overwrite an existing key in place, or append
the new key at the end (dict insertion order).  On a non-object the
Python code would raise; the claims never exercise that corner and the
value is returned unchanged. -/
def jSet (j : Json) (k : String) (v : Json) : Json :=
  match j with
  | Json.obj kvs =>
    if kvs.any (fun p => p.1 == k) then
      Json.obj (kvs.map (fun p => if p.1 == k then (k, v) else p))
    else
      Json.obj (kvs ++ [(k, v)])
  | other => other

/-- Python truthiness of a JSON value (`if not x` in the validators):
None, False, zero, and empty strings, lists and dicts are falsy. -/
def truthy : Json → Bool
  | Json.null => false
  | Json.bool b => b
  | Json.num q => decide (q ≠ 0)
  | Json.str s => !s.isEmpty
  | Json.arr l => !l.isEmpty
  | Json.obj l => !l.isEmpty

/-- Top-level field names of an object result, in insertion order. -/
def topLevelFields : Json → List String
  | Json.obj kvs => kvs.map Prod.fst
  | _ => []

/-- Result of running an agent execution function: a normal return
carrying the result dictionary, or a raised exception carrying the
Python exception text. -/
inductive ExecOutcome where
  | ok : Json → ExecOutcome
  | raise : String → ExecOutcome

/-- Lifecycle status stored in the `agent_runs` table. -/
inductive RunStatus where
  | running : RunStatus
  | completed : RunStatus
  | failed : RunStatus
deriving DecidableEq

/-- One row of the `agent_runs` table, with exactly the columns the
three SQL statements in src/agents/base_agent.py touch.  Timestamps are
abstract integers (milliseconds). -/
structure RunRecord where
  run_id : String
  agent_name : String
  agent_version : String
  input_data : Json
  status : RunStatus
  output_data : Option Json
  error_message : Option String
  start_time : Int
  end_time : Option Int
  execution_time_ms : Option Int
  created_at : Int
  updated_at : Option Int

/-- Whether each of the three best-effort database writes succeeds in a
given invocation; a false flag models the corresponding `psycopg2`
operation raising, which the `_store_agent_run_*` methods catch and
log (src/agents/base_agent.py lines 212-213, 235-236, 258-259). -/
structure DbFlags where
  insertOk : Bool
  updateCompletedOk : Bool
  updateFailedOk : Bool

/-- Per-invocation environment oracle: the UUID produced by
`uuid.uuid4()`, the two `datetime.utcnow()` readings (in milliseconds,
so that `execution_time_ms` is their difference), the timestamp string
interpolated into error responses, and the database failure flags. -/
structure HarnessEnv where
  run_id : String
  start_time : Int
  end_time : Int
  error_ts : String
  flags : DbFlags

/-- The JSON body every harness response carries, with optional fields
recording which keys the Python dict actually contains. -/
structure ResponseBody where
  success : Bool
  run_id : String
  agent : String
  execution_time_ms : Option Int
  result : Option Json
  error : Option String
  timestamp : Option String

/-- A Lambda response: status code plus (already serialized in the
source; kept structured here) body. -/
structure Response where
  statusCode : Nat
  body : ResponseBody

/-- The abstract-method surface of `BaseAgent` plus its configuration:
name, version, the `DEVELOPMENT_MODE` switch read once at construction,
and the three overridable operations (execution outcomes may raise). -/
structure Agent where
  agent_name : String
  agent_version : String
  development_mode : Bool
  validate_input : Json → Option String
  execute_production_mode : Json → ExecOutcome
  execute_development_mode : Json → ExecOutcome

/-- `BaseAgent._create_error_response` (src/agents/base_agent.py lines
261-272): success false, the message as `error`, the run id, the agent
name and a timestamp; note no `execution_time_ms` and no `result`. -/
def create_error_response (agent_name : String) (status_code : Nat) (message run_id ts : String) :
    Response :=
  { statusCode := status_code,
    body := { success := false, run_id := run_id, agent := agent_name,
              execution_time_ms := none, result := none,
              error := some message, timestamp := some ts } }

/-- `BaseAgent._store_agent_run_start` (lines 193-213): in development
mode only a log line is written; otherwise an insert of a `running` row
is attempted and any database exception is swallowed (modelled by the
`insertOk` flag leaving the table unchanged). -/
def store_agent_run_start (a : Agent) (env : HarnessEnv) (event : Json) (db : List RunRecord) :
    List RunRecord :=
  if a.development_mode then db
  else if env.flags.insertOk then
    db ++ [{ run_id := env.run_id, agent_name := a.agent_name,
             agent_version := a.agent_version, input_data := event,
             status := RunStatus.running, output_data := none, error_message := none,
             start_time := env.start_time, end_time := none, execution_time_ms := none,
             created_at := env.start_time, updated_at := none }]
  else db

/-- The field updates of the `UPDATE ... SET output_data, status,
end_time, execution_time_ms, updated_at WHERE run_id` statement on a
single matching row (lines 225-233). -/
def completeRecord (out : Json) (endT et : Int) (r : RunRecord) : RunRecord :=
  { r with output_data := some out, status := RunStatus.completed,
           end_time := some endT, execution_time_ms := some et,
           updated_at := some endT }

/-- The SQL `UPDATE ... WHERE run_id = %s` applied to every matching
row of the table (zero rows match when the insert was skipped). -/
def update_agent_runs_completed (db : List RunRecord) (rid : String) (out : Json) (endT et : Int) :
    List RunRecord :=
  db.map (fun r => if r.run_id == rid then completeRecord out endT et r else r)

/-- `BaseAgent._store_agent_run_completion` (lines 215-236): no-op in
development mode; otherwise the update is attempted and any database
exception is swallowed. -/
def store_agent_run_completion (a : Agent) (env : HarnessEnv) (out : Json) (et : Int)
    (db : List RunRecord) : List RunRecord :=
  if a.development_mode then db
  else if env.flags.updateCompletedOk then
    update_agent_runs_completed db env.run_id out env.end_time et
  else db

/-- The field updates of the failure `UPDATE` statement (lines
248-256). -/
def failRecord (msg : String) (endT et : Int) (r : RunRecord) : RunRecord :=
  { r with error_message := some msg, status := RunStatus.failed,
           end_time := some endT, execution_time_ms := some et,
           updated_at := some endT }

/-- The failure `UPDATE ... WHERE run_id = %s` on every matching row. -/
def update_agent_runs_failed (db : List RunRecord) (rid : String) (msg : String) (endT et : Int) :
    List RunRecord :=
  db.map (fun r => if r.run_id == rid then failRecord msg endT et r else r)

/-- `BaseAgent._store_agent_run_error` (lines 238-259): no-op in
development mode; otherwise the update is attempted and any database
exception is swallowed. -/
def store_agent_run_error (a : Agent) (env : HarnessEnv) (msg : String) (et : Int)
    (db : List RunRecord) : List RunRecord :=
  if a.development_mode then db
  else if env.flags.updateFailedOk then
    update_agent_runs_failed db env.run_id msg env.end_time et
  else db

/-- `BaseAgent.lambda_handler` (src/agents/base_agent.py lines 44-95),
step by step: generate the run id and the start time (both supplied by
`env`), validate, return a 400 error response on a validation message;
otherwise store the run start, dispatch on `development_mode`, and on a
normal return store completion and build the 200 success body, while a
raised exception is caught, the failure is stored, and a 500 response
with the generic `"<agent> execution failed"` message is returned.  The
function returns the response together with the final state of the
`agent_runs` table. -/
def lambda_handler (a : Agent) (env : HarnessEnv) (event : Json) (db0 : List RunRecord) :
    Response × List RunRecord :=
  match a.validate_input event with
  | some validation_error =>
    (create_error_response a.agent_name 400 validation_error env.run_id env.error_ts, db0)
  | none =>
    let db1 := store_agent_run_start a env event db0
    match (if a.development_mode then a.execute_development_mode event
           else a.execute_production_mode event) with
    | ExecOutcome.ok result =>
      let execution_time := env.end_time - env.start_time
      let db2 := store_agent_run_completion a env result execution_time db1
      ({ statusCode := 200,
         body := { success := true, run_id := env.run_id, agent := a.agent_name,
                   execution_time_ms := some execution_time, result := some result,
                   error := none, timestamp := none } }, db2)
    | ExecOutcome.raise e =>
      let execution_time := env.end_time - env.start_time
      let db2 := store_agent_run_error a env e execution_time db1
      (create_error_response a.agent_name 500 (a.agent_name ++ " execution failed")
        env.run_id env.error_ts, db2)

/-- The rows of the table belonging to one run id. -/
def runsFor (db : List RunRecord) (rid : String) : List RunRecord :=
  db.filter (fun r => r.run_id == rid)

/-- `BaseAgent.invoke_nova_pro` (src/agents/base_agent.py lines
118-145).  The transport argument is the outcome of
`bedrock.invoke_model` plus `json.loads` on the response body: an
exception text, or the decoded body.  On an exception the source
re-raises `Exception("LLM inference failed: " + text)`; on success it
returns the `outputText` entry of the first `results` element with
empty-string and empty-object defaults at each step, so a
missing `results` key or a missing `outputText` key silently yields the
empty string, while an empty `results` list raises `IndexError` (which
the same except clause converts to an inference failure).  The Python
messages of the `TypeError`/`AttributeError` corners (non-list
`results`, non-dict entry, non-dict body) are type-specific; they are
approximated here with fixed texts carrying the same source prefix, and
no claim exercises them.  The returned value is kept as `Json` because
the source returns whatever `outputText` holds. -/
def invoke_nova_pro (transport : Except String Json) : Except String Json :=
  match transport with
  | Except.error e => Except.error ("LLM inference failed: " ++ e)
  | Except.ok body =>
    match body with
    | Json.obj _ =>
      match jGetD body "results" (Json.arr [Json.obj []]) with
      | Json.arr [] => Except.error "LLM inference failed: list index out of range"
      | Json.arr (x :: _) =>
        match x with
        | Json.obj _ => Except.ok (jGetD x "outputText" (Json.str ""))
        | _ => Except.error "LLM inference failed: first results entry is not an object"
      | _ => Except.error "LLM inference failed: results value is not a list"
    | _ => Except.error "LLM inference failed: decoded body is not an object"

/-- The standalone `lambda_handler` of
src/agents/EligibilityAgent/handler.py (lines 11-98), which does not
use `BaseAgent`.  The body of its `try` block is abstracted as an
outcome parameter (it is deterministic mock-data assembly); the
`except` branch (lines 80-98) is translated literally: a 500 response
whose body carries success false, the fixed error text, and the raised
exception text under the `message` key.  Its `store_agent_run` helper
(lines 299-306) only writes a log line, so no Run record is touched on
either path. -/
def eligibility_lambda_handler (outcome : ExecOutcome) : Nat × Json :=
  match outcome with
  | ExecOutcome.ok r => (200, r)
  | ExecOutcome.raise e =>
    (500, Json.obj [("success", Json.bool false),
                    ("error", Json.str "Failed to check eligibility"),
                    ("message", Json.str e)])

/-- `DenialClassifierAgent.validate_input`
(src/agents/DenialClassifierAgent/handler.py lines 24-37), with Python
truthiness of the fetched values. -/
def DenialClassifierAgent.validate_input (event : Json) : Option String :=
  let denial_data := jGet event "denialData"
  if !truthy denial_data then some "Missing required field: denialData"
  else if !truthy (jGet denial_data "denialReason") then some "Missing denial reason"
  else if !truthy (jGet denial_data "claimId") then some "Missing claim ID"
  else none

/-- `DenialClassifierAgent._parse_denial_analysis` (lines 137-164):
extract JSON from the model reply; default the required fields
(string "unknown", or 0.5 for `confidence`); clamp a non-numeric or
out-of-range confidence back to 0.5 (a JSON boolean passes the Python
`isinstance(..., (int, float))` test because `bool` is an `int`
subtype, and both truth values lie in [0, 1]); on an extraction error
return the fixed fallback dictionary with the exception text.  When the
extracted value is not an object the Python body raises while
defaulting the fields and the same except clause produces the fallback
dictionary; the type-specific Python message of that corner is
approximated, and no claim exercises it. -/
def parse_denial_analysis (response_text : String) : Json :=
  match extract_json_from_text response_text with
  | Except.ok result =>
    match result with
    | Json.obj _ =>
      let r1 := if jHasKey result "category" then result
                else jSet result "category" (Json.str "unknown")
      let r2 := if jHasKey r1 "suggested_action" then r1
                else jSet r1 "suggested_action" (Json.str "unknown")
      let r3 := if jHasKey r2 "confidence" then r2
                else jSet r2 "confidence" (Json.num (mkRat 1 2))
      let confOk :=
        match jGetD r3 "confidence" (Json.num (mkRat 1 2)) with
        | Json.num q => decide (0 ≤ q) && decide (q ≤ 1)
        | Json.bool _ => true
        | _ => false
      if confOk then r3 else jSet r3 "confidence" (Json.num (mkRat 1 2))
    | _ =>
      Json.obj [("category", Json.str "unknown"),
                ("suggested_action", Json.str "manual_review"),
                ("confidence", Json.num (mkRat 3 10)),
                ("requires_review", Json.bool true),
                ("error", Json.str "Analysis parsing failed: extracted value is not an object")]
  | Except.error e =>
    Json.obj [("category", Json.str "unknown"),
              ("suggested_action", Json.str "manual_review"),
              ("confidence", Json.num (mkRat 3 10)),
              ("requires_review", Json.bool true),
              ("error", Json.str ("Analysis parsing failed: " ++ e))]

/-- `DenialClassifierAgent.execute_production_mode` (lines 39-67).  The
model reply text is the `response_text` parameter (the outcome of
`invoke_nova_pro` on the built prompt) and `model_id` is
`self.bedrock_model_id`; the `_store_denial_record` call writes to the
agent-specific `denials` side table and swallows its own errors, so it
does not affect the returned value, which is the literal
nine-key dictionary of lines 57-67. -/
def DenialClassifierAgent.execute_production_mode (event : Json) (model_id : String)
    (response_text : String) : Json :=
  let denial_data := jGetD event "denialData" (Json.obj [])
  let claim_id := jGet denial_data "claimId"
  let analysis := parse_denial_analysis response_text
  Json.obj [("success", Json.bool true),
            ("claim_id", claim_id),
            ("denial_category", jGet analysis "category"),
            ("suggested_action", jGet analysis "suggested_action"),
            ("appeal_likelihood", jGet analysis "appeal_likelihood"),
            ("confidence", jGet analysis "confidence"),
            ("prevention_tips", jGetD analysis "prevention_tips" (Json.arr [])),
            ("requires_review", jGetD analysis "requires_review" (Json.bool false)),
            ("model_used", Json.str model_id)]

/-- `DenialClassifierAgent.execute_development_mode` (lines 69-90): the
literal mock dictionary, whose float literals become rationals. -/
def DenialClassifierAgent.execute_development_mode (event : Json) : Json :=
  let denial_data := jGetD event "denialData" (Json.obj [])
  let claim_id := jGet denial_data "claimId"
  Json.obj [("success", Json.bool true),
            ("claim_id", claim_id),
            ("denial_category", Json.str "coding_error"),
            ("suggested_action", Json.str "recode_and_resubmit"),
            ("confidence", Json.num (mkRat 92 100)),
            ("appeal_likelihood", Json.num (mkRat 75 100)),
            ("prevention_tips",
              Json.arr [Json.str "Review CPT code specificity requirements",
                        Json.str "Ensure diagnosis supports medical necessity",
                        Json.str "Consider modifier usage for accurate reporting"]),
            ("requires_review", Json.bool false),
            ("development_mode", Json.bool true),
            ("estimated_rework_time", Json.str "15-30 minutes")]

/-- Follows the wording of spec section 4.4 for the refinement
comparison in claim C5, differing from the source only in strategy 2:
the candidate region is solely the span of lines delimited by
fenced-code markers found by the line scan (a line containing the bare
fence marker toggles the region), with no other lines collected. -/
def collect_fenced_lines : List (List Char) → Bool → List (List Char)
  | [], _ => []
  | line :: rest, inside =>
    if charSegIn fenceMarker line then collect_fenced_lines rest (!inside)
    else if inside then line :: collect_fenced_lines rest inside
    else collect_fenced_lines rest inside

/-- The extraction algorithm exactly as spec section 4.4 words it, for
comparison with `extract_json_from_text`: parse the whole text, else
parse the fence-delimited candidate region, else parse the first
opening brace through the last closing brace, else fail. -/
def extract_json_spec (text : String) : Except String Json :=
  let cs := text.toList
  match jsonLoadsChars cs with
  | some j => Except.ok j
  | none =>
    let region := collect_fenced_lines (pySplitOnNl cs) false
    match (if region.isEmpty then none
           else jsonLoadsChars (List.intercalate ['\n'] region)) with
    | some j => Except.ok j
    | none =>
      match List.findIdx? (fun c => c == '{') cs, lastIdxOf cs '}' with
      | some i, some k =>
        match jsonLoadsChars ((cs.drop i).take (k + 1 - i)) with
        | some j => Except.ok j
        | none => Except.error "No valid JSON found in response"
      | _, _ => Except.error "No valid JSON found in response"

/-- A concrete, well-formed model reply for the DenialClassifierAgent
production pipeline fixtures. -/
def denialReply : String :=
  "\x7b\"category\":\"coding_error\",\"suggested_action\":\"recode_and_resubmit\",\"confidence\":1,\"appeal_likelihood\":1,\"prevention_tips\":[],\"requires_review\":false\x7d"

/-- The DenialClassifierAgent instantiated as a harness agent in
production mode, with the inference reply fixed to `denialReply`. -/
def denialAgent : Agent :=
  { agent_name := "DenialClassifierAgent", agent_version := "1.0.0",
    development_mode := false,
    validate_input := DenialClassifierAgent.validate_input,
    execute_production_mode := fun e =>
      ExecOutcome.ok (DenialClassifierAgent.execute_production_mode e "amazon.nova-pro-v1:0" denialReply),
    execute_development_mode := fun e =>
      ExecOutcome.ok (DenialClassifierAgent.execute_development_mode e) }

/-- The same agent with an execution path that raises (as
`invoke_nova_pro` does on a transport fault, which
`execute_production_mode` propagates). -/
def failingAgent : Agent :=
  { agent_name := "DenialClassifierAgent", agent_version := "1.0.0",
    development_mode := false,
    validate_input := DenialClassifierAgent.validate_input,
    execute_production_mode := fun _ =>
      ExecOutcome.raise "LLM inference failed: Read timeout on endpoint",
    execute_development_mode := fun e =>
      ExecOutcome.ok (DenialClassifierAgent.execute_development_mode e) }

/-- A request that passes `DenialClassifierAgent.validate_input`. -/
def validEvent : Json :=
  Json.obj [("denialData",
    Json.obj [("claimId", Json.str "CLM-1001"),
              ("denialReason", Json.str "Duplicate claim")])]

/-- A request that fails validation (no `denialData` key). -/
def invalidEvent : Json := Json.obj [("patientId", Json.str "P-1")]

/-- Invocation environment in which every database write succeeds. -/
def envAllOk : HarnessEnv :=
  { run_id := "run-1", start_time := 1000, end_time := 1250,
    error_ts := "2026-02-03T04:05:06",
    flags := { insertOk := true, updateCompletedOk := true, updateFailedOk := true } }

/-- Invocation environment in which the insert succeeds but the
completion update fails. -/
def envUpdateFail : HarnessEnv :=
  { run_id := "run-2", start_time := 1000, end_time := 1250,
    error_ts := "2026-02-03T04:05:06",
    flags := { insertOk := true, updateCompletedOk := false, updateFailedOk := true } }

/-- Invocation environment in which every database write fails. -/
def envAllFail : HarnessEnv :=
  { run_id := "run-3", start_time := 1000, end_time := 1250,
    error_ts := "2026-02-03T04:05:06",
    flags := { insertOk := false, updateCompletedOk := false, updateFailedOk := false } }

theorem runsFor_append (db1 db2 : List RunRecord) (rid : String) :
    runsFor (db1 ++ db2) rid = runsFor db1 rid ++ runsFor db2 rid :=
  List.filter_append _ _

theorem runsFor_update_completed (db : List RunRecord) (rid : String) (out : Json) (endT et : Int) :
    runsFor (update_agent_runs_completed db rid out endT et) rid =
      (runsFor db rid).map (completeRecord out endT et) := by
  unfold update_agent_runs_completed runsFor
  rw [List.filter_map]
  have h1 : List.filter ((fun r => r.run_id == rid) ∘
        (fun r => if r.run_id == rid then completeRecord out endT et r else r)) db =
      List.filter (fun r => r.run_id == rid) db := by
    apply List.filter_congr
    intro r _
    by_cases hc : r.run_id = rid
    · simp [Function.comp, hc, completeRecord]
    · simp [Function.comp, hc]
  rw [h1]
  apply List.map_congr_left
  intro r hr
  have hc := List.of_mem_filter hr
  simp only [hc, if_true]

theorem runsFor_update_failed (db : List RunRecord) (rid : String) (msg : String) (endT et : Int) :
    runsFor (update_agent_runs_failed db rid msg endT et) rid =
      (runsFor db rid).map (failRecord msg endT et) := by
  unfold update_agent_runs_failed runsFor
  rw [List.filter_map]
  have h1 : List.filter ((fun r => r.run_id == rid) ∘
        (fun r => if r.run_id == rid then failRecord msg endT et r else r)) db =
      List.filter (fun r => r.run_id == rid) db := by
    apply List.filter_congr
    intro r _
    by_cases hc : r.run_id = rid
    · simp [Function.comp, hc, failRecord]
    · simp [Function.comp, hc]
  rw [h1]
  apply List.map_congr_left
  intro r hr
  have hc := List.of_mem_filter hr
  simp only [hc, if_true]

/-- C4: the extractor satisfies the four reference cases of spec
section 8: plain JSON text parses directly; a json-fenced block inside
prose is recovered; an embedded object with surrounding noise is
recovered through the brace slice; pure prose signals the extraction
failure (`ValueError("No valid JSON found in response")`). -/
theorem extractor_reference_cases :
    extract_json_from_text "\x7b\"a\":1\x7d" = Except.ok (Json.obj [("a", Json.num 1)]) ∧
    extract_json_from_text "Here is the data:\n```json\n\x7b\"a\":1\x7d\n```\nThanks" =
      Except.ok (Json.obj [("a", Json.num 1)]) ∧
    extract_json_from_text "noise \x7b\"a\":1\x7d trailing" =
      Except.ok (Json.obj [("a", Json.num 1)]) ∧
    extract_json_from_text "not json at all" =
      Except.error "No valid JSON found in response" :=
  ⟨rfl, rfl, rfl, rfl⟩

/-- C2: whenever `validate_input` returns a message, `lambda_handler`
returns the 400 envelope with success false carrying exactly that
message as its error, and the `agent_runs` table is left untouched (no
insert-running write happens on that invocation). -/
theorem validation_failure_no_run (a : Agent) (env : HarnessEnv) (event : Json)
    (db0 : List RunRecord) (msg : String) (hval : a.validate_input event = some msg) :
    (lambda_handler a env event db0).1.body.success = false ∧
    (lambda_handler a env event db0).1.body.error = some msg ∧
    (lambda_handler a env event db0).2 = db0 := by
  unfold lambda_handler
  rw [hval]
  exact ⟨rfl, rfl, rfl⟩

theorem validation_failure_no_run_witness :
    denialAgent.validate_input invalidEvent = some "Missing required field: denialData" ∧
    (lambda_handler denialAgent envAllOk invalidEvent []).1.body.success = false ∧
    (lambda_handler denialAgent envAllOk invalidEvent []).1.body.error =
      some "Missing required field: denialData" ∧
    (lambda_handler denialAgent envAllOk invalidEvent []).2 = [] :=
  ⟨rfl, validation_failure_no_run denialAgent envAllOk invalidEvent []
    "Missing required field: denialData" rfl⟩

/-- C10: on a validation failure the rejection envelope still carries
the run id generated at the top of `lambda_handler` (before validation
runs), while the table is returned unchanged, so no Run record with
that id is ever created by the invocation. -/
theorem rejection_envelope_has_run_id (a : Agent) (env : HarnessEnv) (event : Json)
    (db0 : List RunRecord) (msg : String) (hval : a.validate_input event = some msg) :
    (lambda_handler a env event db0).1.body.run_id = env.run_id ∧
    (lambda_handler a env event db0).2 = db0 := by
  unfold lambda_handler
  rw [hval]
  exact ⟨rfl, rfl⟩

theorem rejection_envelope_has_run_id_witness :
    denialAgent.validate_input invalidEvent = some "Missing required field: denialData" ∧
    (lambda_handler denialAgent envAllOk invalidEvent []).1.body.run_id = envAllOk.run_id ∧
    (lambda_handler denialAgent envAllOk invalidEvent []).2 = [] :=
  ⟨rfl, rejection_envelope_has_run_id denialAgent envAllOk invalidEvent []
    "Missing required field: denialData" rfl⟩

/-- C7: when validation passes and the selected execution function
returns normally, the invocation returns the 200 success envelope
carrying that result, for every database environment — in particular
when the insert-running or update-completed writes fail, because
`_store_agent_run_start` and `_store_agent_run_completion` swallow
their own exceptions. -/
theorem persistence_failure_preserves_success (a : Agent) (env : HarnessEnv) (event : Json)
    (db0 : List RunRecord) (r : Json) (hval : a.validate_input event = none)
    (hexec : (if a.development_mode then a.execute_development_mode event
              else a.execute_production_mode event) = ExecOutcome.ok r) :
    (lambda_handler a env event db0).1 =
      { statusCode := 200,
        body := { success := true, run_id := env.run_id, agent := a.agent_name,
                  execution_time_ms := some (env.end_time - env.start_time),
                  result := some r, error := none, timestamp := none } } := by
  unfold lambda_handler
  rw [hval, hexec]

theorem persistence_failure_preserves_success_witness :
    denialAgent.validate_input validEvent = none ∧
    (lambda_handler denialAgent envAllFail validEvent []).1 =
      { statusCode := 200,
        body := { success := true, run_id := envAllFail.run_id,
                  agent := denialAgent.agent_name,
                  execution_time_ms := some (envAllFail.end_time - envAllFail.start_time),
                  result := some (DenialClassifierAgent.execute_production_mode validEvent
                    "amazon.nova-pro-v1:0" denialReply),
                  error := none, timestamp := none } } :=
  ⟨rfl, persistence_failure_preserves_success denialAgent envAllFail validEvent []
    (DenialClassifierAgent.execute_production_mode validEvent "amazon.nova-pro-v1:0" denialReply)
    rfl rfl⟩

/-- C1 counterexample: a request that passes validation, in production
mode with the insert succeeding, whose completion update fails (a
swallowed persistence error): after `lambda_handler` returns, the one
Run record for the generated run id is still in status `running` — not
`completed` or `failed` as the claim requires. -/
theorem run_left_running_on_persistence_failure :
    (runsFor (lambda_handler denialAgent envUpdateFail validEvent []).2
        envUpdateFail.run_id).map (fun r => r.status) = [RunStatus.running] ∧
    RunStatus.running ≠ RunStatus.completed ∧
    RunStatus.running ≠ RunStatus.failed :=
  ⟨rfl, by decide, by decide⟩

/-- C3 counterexample: a validation-rejection envelope (built by
`_create_error_response`) carries no `execution_time_ms` key at all,
refuting the claim that the field is present in every envelope. -/
theorem error_envelope_lacks_execution_time :
    (lambda_handler denialAgent envAllOk invalidEvent []).1.body.execution_time_ms = none ∧
    (lambda_handler denialAgent envAllOk invalidEvent []).1.body.success = false :=
  ⟨rfl, rfl⟩

/-- C5 counterexample: on a text whose first line looks like a JSON
object but which contains no fenced-code marker at all, the source
extractor succeeds through its line scan (which also collects unfenced
brace-delimited lines), while the algorithm as the claim describes it
— strategy 2 parsing only a region delimited by fenced-code markers —
falls through to the brace slice and fails.  The two algorithms are
therefore observably different functions. -/
theorem extractor_strategy2_collects_unfenced_lines :
    extract_json_from_text "\x7b\"a\":1\x7d\njunk \x7d" =
      Except.ok (Json.obj [("a", Json.num 1)]) ∧
    extract_json_spec "\x7b\"a\":1\x7d\njunk \x7d" =
      Except.error "No valid JSON found in response" :=
  ⟨rfl, rfl⟩

/-- C6 counterexample: for the DenialClassifierAgent the two modes do
not return identical top-level field sets: `model_used` is present in
the production result but absent from the development result, and
`development_mode` (with `estimated_rework_time`) is present in the
development result but absent from the production result. -/
theorem mode_field_sets_differ :
    "model_used" ∈ topLevelFields
      (DenialClassifierAgent.execute_production_mode validEvent "amazon.nova-pro-v1:0" denialReply) ∧
    "model_used" ∉ topLevelFields
      (DenialClassifierAgent.execute_development_mode validEvent) ∧
    "development_mode" ∈ topLevelFields
      (DenialClassifierAgent.execute_development_mode validEvent) ∧
    "development_mode" ∉ topLevelFields
      (DenialClassifierAgent.execute_production_mode validEvent "amazon.nova-pro-v1:0" denialReply) ∧
    "estimated_rework_time" ∉ topLevelFields
      (DenialClassifierAgent.execute_production_mode validEvent "amazon.nova-pro-v1:0" denialReply) := by
  decide

/-- C6 amended: the top-level field sets of the two execution modes of
the DenialClassifierAgent, for every request and every model reply:
both carry the eight shared business fields, but production adds
`model_used` while development adds `development_mode` and
`estimated_rework_time`, so the sets are close but not identical. -/
theorem denial_classifier_field_sets (event : Json) (model_id response_text : String) :
    topLevelFields (DenialClassifierAgent.execute_production_mode event model_id response_text) =
      ["success", "claim_id", "denial_category", "suggested_action", "appeal_likelihood",
       "confidence", "prevention_tips", "requires_review", "model_used"] ∧
    topLevelFields (DenialClassifierAgent.execute_development_mode event) =
      ["success", "claim_id", "denial_category", "suggested_action", "confidence",
       "appeal_likelihood", "prevention_tips", "requires_review", "development_mode",
       "estimated_rework_time"] :=
  ⟨rfl, rfl⟩

/-- C8 counterexample: the standalone EligibilityAgent handler, when
its body raises, returns an envelope whose `message` field holds the
raw exception text — the exception text does reach the caller, and (its
`store_agent_run` being log-only) no Run record holds it. -/
theorem eligibility_error_leaks_exception_text :
    (eligibility_lambda_handler (ExecOutcome.raise "division by zero")).2 =
      Json.obj [("success", Json.bool false),
                ("error", Json.str "Failed to check eligibility"),
                ("message", Json.str "division by zero")] ∧
    jGet (eligibility_lambda_handler (ExecOutcome.raise "division by zero")).2 "message" =
      Json.str "division by zero" :=
  ⟨rfl, rfl⟩

/-- C9 counterexample: on a successful transport call whose decoded
body has no `results` key, and likewise when the first results entry
has no `outputText` key, `invoke_nova_pro` silently returns the empty
string instead of signalling an inference failure. -/
theorem nova_silent_empty_output :
    invoke_nova_pro (Except.ok (Json.obj [])) = Except.ok (Json.str "") ∧
    invoke_nova_pro (Except.ok (Json.obj [("results", Json.arr [Json.obj []])])) =
      Except.ok (Json.str "") :=
  ⟨rfl, rfl⟩

/-- C9 amended: every transport or decoding error is surfaced as a
distinguishable inference failure carrying the source prefix, and an
empty `results` list also fails (through the index error); but a
decoded body that merely lacks `results` or `outputText` silently
yields the empty string. -/
theorem invoke_nova_pro_amended :
    (∀ e : String, invoke_nova_pro (Except.error e) =
      Except.error ("LLM inference failed: " ++ e)) ∧
    invoke_nova_pro (Except.ok (Json.obj [("results", Json.arr [])])) =
      Except.error "LLM inference failed: list index out of range" ∧
    invoke_nova_pro (Except.ok (Json.obj [])) = Except.ok (Json.str "") :=
  ⟨fun _ => rfl, rfl, rfl⟩

/-- C1 amended: for a request that passes validation, in production
mode, when the Run-write database operations succeed and the generated
run id is fresh, exactly one Run record exists afterwards and it is
terminal — status `completed` when the execution function returned
normally and `failed` when it raised; it is never left `running`.
(Without the persistence proviso the record can be left `running`, and
in development mode no record is written at all.) -/
theorem run_lifecycle_terminal (a : Agent) (env : HarnessEnv) (event : Json)
    (db0 : List RunRecord) (hdev : a.development_mode = false)
    (hins : env.flags.insertOk = true) (hupc : env.flags.updateCompletedOk = true)
    (hupf : env.flags.updateFailedOk = true) (hval : a.validate_input event = none)
    (hfresh : runsFor db0 env.run_id = []) :
    (runsFor (lambda_handler a env event db0).2 env.run_id).map (fun r => r.status) =
        [RunStatus.completed] ∨
    (runsFor (lambda_handler a env event db0).2 env.run_id).map (fun r => r.status) =
        [RunStatus.failed] := by
  cases hexec : a.execute_production_mode event with
  | ok r =>
    left
    unfold lambda_handler store_agent_run_completion store_agent_run_start
    rw [hval]
    simp only [hdev, hins, hupc, Bool.false_eq_true, if_false, if_true, hexec]
    rw [runsFor_update_completed, runsFor_append, hfresh]
    simp [runsFor, completeRecord]
  | raise e =>
    right
    unfold lambda_handler store_agent_run_error store_agent_run_start
    rw [hval]
    simp only [hdev, hins, hupf, Bool.false_eq_true, if_false, if_true, hexec]
    rw [runsFor_update_failed, runsFor_append, hfresh]
    simp [runsFor, failRecord]

theorem run_lifecycle_terminal_witness :
    denialAgent.validate_input validEvent = none ∧
    ((runsFor (lambda_handler denialAgent envAllOk validEvent []).2 envAllOk.run_id).map
        (fun r => r.status) = [RunStatus.completed] ∨
     (runsFor (lambda_handler denialAgent envAllOk validEvent []).2 envAllOk.run_id).map
        (fun r => r.status) = [RunStatus.failed]) :=
  ⟨rfl, run_lifecycle_terminal denialAgent envAllOk validEvent [] rfl rfl rfl rfl rfl rfl⟩

/-- C3 amended: every envelope `lambda_handler` returns has exactly one
of `result`/`error` set; but `execution_time_ms` is present exactly on
the success envelope (the error envelopes built by
`_create_error_response` carry a `timestamp` instead), and when present
it is non-negative provided the two clock readings are monotone. -/
theorem envelope_invariant_amended (a : Agent) (env : HarnessEnv) (event : Json)
    (db0 : List RunRecord) (hclock : env.start_time ≤ env.end_time) :
    (((lambda_handler a env event db0).1.body.result.isSome = true ∧
      (lambda_handler a env event db0).1.body.error = none) ∨
     ((lambda_handler a env event db0).1.body.result = none ∧
      (lambda_handler a env event db0).1.body.error.isSome = true)) ∧
    ((lambda_handler a env event db0).1.body.execution_time_ms.isSome =
      (lambda_handler a env event db0).1.body.success) ∧
    0 ≤ (lambda_handler a env event db0).1.body.execution_time_ms.getD 0 := by
  unfold lambda_handler
  cases hval : a.validate_input event with
  | some msg => simp [create_error_response]
  | none =>
    cases hexec : (if a.development_mode then a.execute_development_mode event
                   else a.execute_production_mode event) with
    | ok r =>
      refine ⟨Or.inl ⟨rfl, rfl⟩, rfl, ?_⟩
      simpa using Int.sub_nonneg.mpr hclock
    | raise e => exact ⟨Or.inr ⟨rfl, rfl⟩, rfl, by simp [create_error_response]⟩

theorem envelope_invariant_amended_witness :
    envAllOk.start_time ≤ envAllOk.end_time ∧
    ((((lambda_handler denialAgent envAllOk validEvent []).1.body.result.isSome = true ∧
       (lambda_handler denialAgent envAllOk validEvent []).1.body.error = none) ∨
      ((lambda_handler denialAgent envAllOk validEvent []).1.body.result = none ∧
       (lambda_handler denialAgent envAllOk validEvent []).1.body.error.isSome = true)) ∧
     ((lambda_handler denialAgent envAllOk validEvent []).1.body.execution_time_ms.isSome =
       (lambda_handler denialAgent envAllOk validEvent []).1.body.success) ∧
     0 ≤ (lambda_handler denialAgent envAllOk validEvent []).1.body.execution_time_ms.getD 0) :=
  ⟨by decide, envelope_invariant_amended denialAgent envAllOk validEvent [] (by decide)⟩

/-- C8 amended: the `BaseAgent` harness does satisfy the claim — a
raised execution exception is caught, the caller receives the fixed
generic `"<agent> execution failed"` message (an expression in which
the exception text does not occur), and the exception text lands only
in the failed Run record when the Run writes succeed.  The standalone
EligibilityAgent handler, however, additionally copies the raw
exception text into the `message` field of its error envelope (and its
log-only `store_agent_run` persists no Run record at all). -/
theorem harness_generic_error_amended (a : Agent) (env : HarnessEnv) (event : Json)
    (db0 : List RunRecord) (msg : String) (hdev : a.development_mode = false)
    (hval : a.validate_input event = none)
    (hexec : a.execute_production_mode event = ExecOutcome.raise msg)
    (hins : env.flags.insertOk = true) (hupf : env.flags.updateFailedOk = true)
    (hfresh : runsFor db0 env.run_id = []) :
    (lambda_handler a env event db0).1 =
      create_error_response a.agent_name 500 (a.agent_name ++ " execution failed")
        env.run_id env.error_ts ∧
    (runsFor (lambda_handler a env event db0).2 env.run_id).map
        (fun r => (r.status, r.error_message)) = [(RunStatus.failed, some msg)] ∧
    (eligibility_lambda_handler (ExecOutcome.raise msg)).2 =
      Json.obj [("success", Json.bool false),
                ("error", Json.str "Failed to check eligibility"),
                ("message", Json.str msg)] := by
  refine ⟨?_, ?_, rfl⟩
  · unfold lambda_handler
    rw [hval]
    simp only [hdev, Bool.false_eq_true, if_false, hexec]
  · unfold lambda_handler store_agent_run_error store_agent_run_start
    rw [hval]
    simp only [hdev, hins, hupf, Bool.false_eq_true, if_false, if_true, hexec]
    rw [runsFor_update_failed, runsFor_append, hfresh]
    simp [runsFor, failRecord]

theorem harness_generic_error_amended_witness :
    failingAgent.validate_input validEvent = none ∧
    failingAgent.execute_production_mode validEvent =
      ExecOutcome.raise "LLM inference failed: Read timeout on endpoint" ∧
    ((lambda_handler failingAgent envAllOk validEvent []).1 =
      create_error_response failingAgent.agent_name 500
        (failingAgent.agent_name ++ " execution failed") envAllOk.run_id envAllOk.error_ts ∧
     (runsFor (lambda_handler failingAgent envAllOk validEvent []).2 envAllOk.run_id).map
        (fun r => (r.status, r.error_message)) =
       [(RunStatus.failed, some "LLM inference failed: Read timeout on endpoint")] ∧
     (eligibility_lambda_handler
        (ExecOutcome.raise "LLM inference failed: Read timeout on endpoint")).2 =
       Json.obj [("success", Json.bool false),
                 ("error", Json.str "Failed to check eligibility"),
                 ("message", Json.str "LLM inference failed: Read timeout on endpoint")]) :=
  ⟨rfl, rfl, harness_generic_error_amended failingAgent envAllOk validEvent []
    "LLM inference failed: Read timeout on endpoint" rfl rfl rfl rfl rfl rfl⟩

/-- C5 amended: the extractor is exactly the priority fallback of its
three strategies — whole-text parse, then the line-scan candidate
(which collects the fence-delimited region and also any unfenced line
whose stripped form is brace-delimited), then the first-brace to
last-brace slice — each strategy consulted only when the previous ones
produced nothing, and the distinguishable `ValueError` outcome occurs
exactly when all three strategies fail. -/
theorem extract_three_strategies (text : String) :
    (extract_json_from_text text =
      match extract_attempt1 text with
      | some j => Except.ok j
      | none =>
        match extract_attempt2 text with
        | some j => Except.ok j
        | none =>
          match extract_attempt3 text with
          | some j => Except.ok j
          | none => Except.error "No valid JSON found in response") ∧
    (extract_json_from_text text = Except.error "No valid JSON found in response" ↔
      extract_attempt1 text = none ∧ extract_attempt2 text = none ∧
        extract_attempt3 text = none) := by
  simp only [extract_json_from_text, extract_attempt1, extract_attempt2, extract_attempt3]
  cases h1 : jsonLoadsChars text.toList with
  | some j => exact ⟨rfl, by simp⟩
  | none =>
    cases h2 : (if (collect_json_lines (pySplitOnNl text.toList) false).isEmpty then none
                else jsonLoadsChars
                  (List.intercalate ['\n'] (collect_json_lines (pySplitOnNl text.toList) false))) with
    | some j => exact ⟨rfl, by simp⟩
    | none =>
      cases hf : List.findIdx? (fun c => c == '{') text.toList with
      | none => exact ⟨rfl, by simp⟩
      | some i =>
        cases hl : lastIdxOf text.toList '}' with
        | none => exact ⟨rfl, by simp⟩
        | some k =>
          cases h3 : jsonLoadsChars ((text.toList.drop i).take (k + 1 - i)) with
          | some j =>
            simp only [String.toList] at h3
            exact ⟨rfl, by simp [h3]⟩
          | none =>
            simp only [String.toList] at h3
            exact ⟨rfl, by simp [h3]⟩
